import Mathlib

/-!
Shallow embedding of the Thirteen / Big Two rules engine
(`Card.h`, `Card.cpp`, `GameRules.h`, `GameRules.cpp`).

Machine integers of the source are modelled as `Nat` (all values involved
are tiny and non-negative, so no overflow arises).  C++ `throw` sites are
modelled as `Option`: a function that can reach a `throw` returns `none`
there, and callers propagate `none`.
-/

namespace Thirteen

/-- Embeds `enum class Rank` of `Card.h`: thirteen ranks with underlying values
3..15; Two is the highest rank. -/
inductive Rank where
  | Three | Four | Five | Six | Seven | Eight | Nine | Ten
  | Jack | Queen | King | Ace | Two
  deriving DecidableEq, Repr, Fintype

/-- Underlying integer value of a `Rank` enumerator (3..15), as declared in
`Card.h` (`Three = 3`, ..., `Ace = 14`, `Two = 15`). -/
def Rank.val : Rank → Nat
  | .Three => 3
  | .Four  => 4
  | .Five  => 5
  | .Six   => 6
  | .Seven => 7
  | .Eight => 8
  | .Nine  => 9
  | .Ten   => 10
  | .Jack  => 11
  | .Queen => 12
  | .King  => 13
  | .Ace   => 14
  | .Two   => 15

/-- Embeds `enum class Suit` of `Card.h`: Diamonds = 0, Clubs = 1, Hearts = 2,
Spades = 3. -/
inductive Suit where
  | Diamonds | Clubs | Hearts | Spades
  deriving DecidableEq, Repr, Fintype

/-- Underlying integer value of a `Suit` enumerator (0..3). -/
def Suit.val : Suit → Nat
  | .Diamonds => 0
  | .Clubs    => 1
  | .Hearts   => 2
  | .Spades   => 3

/-- Embeds `class Card`: a (rank, suit) pair. -/
structure Card where
  rank : Rank
  suit : Suit
  deriving DecidableEq, Repr, Fintype

/-- Embeds `Card::operator<` (`Card.cpp`): compare by rank first (enum underlying
values), then by suit if the ranks are equal. -/
def Card.lt (a b : Card) : Bool :=
  if a.rank ≠ b.rank then decide (a.rank.val < b.rank.val)
  else decide (a.suit.val < b.suit.val)

/-- Embeds `Card::operator>` (`Card.cpp`): `a > b` is defined as `b < a`. -/
def Card.gt (a b : Card) : Bool :=
  Card.lt b a

/-- Injective numeric key for a card (`rank * 4 + suit`); used only in
proofs, to relate `Card.lt` to a linear order on `Nat`. -/
def Card.code (c : Card) : Nat :=
  c.rank.val * 4 + c.suit.val

/-- Embeds `enum class PlayType` (`GameRules.h`). -/
inductive PlayType where
  | Invalid | Single | Pair | Triple | FiveCard
  deriving DecidableEq, Repr

/-- Embeds `enum class FiveCardType` (`GameRules.h`). -/
inductive FiveCardType where
  | None | Straight | Flush | FullHouse | FourOfAKind | StraightFlush
  deriving DecidableEq, Repr

/-- Embeds `struct PlayValidation` (`GameRules.h`), with its default constructor
values. -/
structure PlayValidation where
  isValid : Bool := false
  playType : PlayType := PlayType.Invalid
  fiveCardType : FiveCardType := FiveCardType.None
  errorMessage : String := ""
  deriving DecidableEq, Repr

namespace GameRules

/-- The by-rank comparison relation used to model `std::sort` with the
comparator `a.getRank() < b.getRank()`. -/
def rankLE (a b : Card) : Prop :=
  a.rank.val ≤ b.rank.val

instance : DecidableRel rankLE := fun a b => Nat.decLe a.rank.val b.rank.val

instance : IsTotal Card rankLE :=
  ⟨fun a b => by rw [rankLE, rankLE]; omega⟩

instance : IsTrans Card rankLE :=
  ⟨fun a b c h1 h2 => by rw [rankLE] at h1 h2 ⊢; omega⟩

/-- Embeds `GameRules::sortByRank` (`GameRules.cpp`): `std::sort` with comparator
`a.getRank() < b.getRank()`, i.e. a sort of the cards by non-decreasing
rank value.  `std::sort` leaves the relative order of rank-ties
unspecified; every rule below reads only the rank sequence of the result,
which is the same for every rank-sorted permutation, so any sorting
algorithm is a faithful model for all uses; insertion sort is used because
it reduces definitionally. -/
def sortByRank (cards : List Card) : List Card :=
  cards.insertionSort rankLE

/-- The rank sequence read off the rank-sorted cards (the values
`sorted[0].getRank(), ..., sorted[n-1].getRank()` that the five-card shape
tests of `GameRules.cpp` inspect). -/
def sortedRanks (cards : List Card) : List Rank :=
  (sortByRank cards).map Card.rank

/-- The loop of `GameRules::isStraight`: every adjacent pair of the (sorted)
rank sequence differs by exactly one enum step
(`currRank == prevRank + 1`). -/
def consecutiveRanks : List Rank → Bool
  | r1 :: r2 :: rest => (r2.val == r1.val + 1) && consecutiveRanks (r2 :: rest)
  | _ => true

/-- Embeds `GameRules::isStraight` (`GameRules.cpp`): size 5 and consecutive sorted
ranks. -/
def isStraight (cards : List Card) : Bool :=
  cards.length == 5 && consecutiveRanks (sortedRanks cards)

/-- Embeds `GameRules::isFlush` (`GameRules.cpp`): size 5 and every card has the
suit of `cards[0]`. -/
def isFlush (cards : List Card) : Bool :=
  if cards.length ≠ 5 then false
  else
    match cards with
    | [] => false  -- unreachable: the guard forces length 5
    | c :: rest => rest.all (fun x => x.suit == c.suit)

/-- The sorted-rank pattern of `GameRules::isFullHouse`:
`AAA BB` or `AA BBB` read at positions 0..4 of the sorted cards. -/
def fullHousePattern : List Rank → Bool
  | [r0, r1, r2, r3, r4] =>
      (r0 == r1 && r1 == r2 && r3 == r4) || (r0 == r1 && r2 == r3 && r3 == r4)
  | _ => false

/-- Embeds `GameRules::isFullHouse` (`GameRules.cpp`). -/
def isFullHouse (cards : List Card) : Bool :=
  cards.length == 5 && fullHousePattern (sortedRanks cards)

/-- The sorted-rank pattern of `GameRules::isFourOfAKind`:
`AAAA B` or `A BBBB` read at positions 0..4 of the sorted cards. -/
def fourOfAKindPattern : List Rank → Bool
  | [r0, r1, r2, r3, r4] =>
      (r0 == r1 && r1 == r2 && r2 == r3) || (r1 == r2 && r2 == r3 && r3 == r4)
  | _ => false

/-- Embeds `GameRules::isFourOfAKind` (`GameRules.cpp`). -/
def isFourOfAKind (cards : List Card) : Bool :=
  cards.length == 5 && fourOfAKindPattern (sortedRanks cards)

/-- Embeds `GameRules::isStraightFlush` (`GameRules.cpp`). -/
def isStraightFlush (cards : List Card) : Bool :=
  isStraight cards && isFlush cards

/-- Embeds `GameRules::determineFiveCardType` (`GameRules.cpp`): size-5 guard, then
the sub-shape tests in order of strength, highest first. -/
def determineFiveCardType (cards : List Card) : FiveCardType :=
  if cards.length ≠ 5 then FiveCardType.None
  else if isStraightFlush cards then FiveCardType.StraightFlush
  else if isFourOfAKind cards then FiveCardType.FourOfAKind
  else if isFullHouse cards then FiveCardType.FullHouse
  else if isFlush cards then FiveCardType.Flush
  else if isStraight cards then FiveCardType.Straight
  else FiveCardType.None

/-- Embeds `GameRules::isPair` (`GameRules.cpp`): size 2 and
`cards[0].getRank() == cards[1].getRank()`. -/
def isPair (cards : List Card) : Bool :=
  match cards with
  | [a, b] => a.rank == b.rank
  | _ => false

/-- Embeds `GameRules::isTriple` (`GameRules.cpp`): size 3 and all three ranks
equal. -/
def isTriple (cards : List Card) : Bool :=
  match cards with
  | [a, b, c] => a.rank == b.rank && b.rank == c.rank
  | _ => false

/-- Embeds `GameRules::determinePlayType` (`GameRules.cpp`). -/
def determinePlayType (cards : List Card) : PlayType :=
  if cards.length == 1 then PlayType.Single
  else if cards.length == 2 && isPair cards then PlayType.Pair
  else if cards.length == 3 && isTriple cards then PlayType.Triple
  else if cards.length == 5 && determineFiveCardType cards != FiveCardType.None then
    PlayType.FiveCard
  else PlayType.Invalid

/-- Embeds `GameRules::getHighestCard` (`GameRules.cpp`): linear scan keeping the
strictly greater card; throws (here: `none`) on an empty set. -/
def getHighestCard : List Card → Option Card
  | [] => none
  | c :: rest => some (rest.foldl (fun h x => if Card.lt h x then x else h) c)

/-- Embeds `GameRules::getFiveCardRank` (`GameRules.cpp`): the fixed strength table
Straight 1, Flush 2, FullHouse 3, FourOfAKind 4, StraightFlush 5, default
0. -/
def getFiveCardRank : FiveCardType → Nat
  | FiveCardType.Straight      => 1
  | FiveCardType.Flush         => 2
  | FiveCardType.FullHouse     => 3
  | FiveCardType.FourOfAKind   => 4
  | FiveCardType.StraightFlush => 5
  | FiveCardType.None          => 0

/-- Embeds `GameRules::singleBeats` (`GameRules.cpp`): `newCard > lastCard`. -/
def singleBeats (newCard lastCard : Card) : Bool :=
  Card.gt newCard lastCard

/-- Embeds `GameRules::pairBeats` (`GameRules.cpp`). -/
def pairBeats (newPair lastPair : List Card) : Option Bool :=
  if newPair.length ≠ 2 || lastPair.length ≠ 2 then some false
  else
    match getHighestCard newPair, getHighestCard lastPair with
    | some newHigh, some lastHigh => some (Card.gt newHigh lastHigh)
    | _, _ => none

/-- Embeds `GameRules::tripleBeats` (`GameRules.cpp`). -/
def tripleBeats (newTriple lastTriple : List Card) : Option Bool :=
  if newTriple.length ≠ 3 || lastTriple.length ≠ 3 then some false
  else
    match getHighestCard newTriple, getHighestCard lastTriple with
    | some newHigh, some lastHigh => some (Card.gt newHigh lastHigh)
    | _, _ => none

/-- Embeds `GameRules::fiveCardBeats` (`GameRules.cpp`): compare the combination
rank of the two sub-shapes first, then the highest card on a tie. -/
def fiveCardBeats (newCards lastCards : List Card) : Option Bool :=
  let newType := determineFiveCardType newCards
  let lastType := determineFiveCardType lastCards
  let newRank := getFiveCardRank newType
  let lastRank := getFiveCardRank lastType
  if newRank > lastRank then some true
  else if newRank < lastRank then some false
  else
    match getHighestCard newCards, getHighestCard lastCards with
    | some newHigh, some lastHigh => some (Card.gt newHigh lastHigh)
    | _, _ => none

/-- Embeds `GameRules::doesPlayBeat` (`GameRules.cpp`).  The `newPlay[0]` /
`lastPlay[0]` accesses of the `Single` case are modelled with `head?`
(`none` would mean an out-of-bounds access; both lists are non-empty and of
equal size whenever that case is reached). -/
def doesPlayBeat (newPlay lastPlay : List Card) : Option Bool :=
  if lastPlay.isEmpty then some true  -- any play beats an empty play
  else if newPlay.length ≠ lastPlay.length then some false
  else
    match determinePlayType newPlay with
    | PlayType.Single =>
        match newPlay.head?, lastPlay.head? with
        | some n, some l => some (singleBeats n l)
        | _, _ => none
    | PlayType.Pair => pairBeats newPlay lastPlay
    | PlayType.Triple => tripleBeats newPlay lastPlay
    | PlayType.FiveCard => fiveCardBeats newPlay lastPlay
    | PlayType.Invalid => some false

/-- Embeds `GameRules::containsThreeOfDiamonds` (`GameRules.cpp`). -/
def containsThreeOfDiamonds (cards : List Card) : Bool :=
  cards.any (fun c => c == Card.mk Rank.Three Suit.Diamonds)

/-- The tail of `GameRules::validatePlay` (`GameRules.cpp`), from the
first-play / cleared-table check on, with the already-classified `playType`
and `fiveCardType` carried in the result exactly as the source's `result`
object carries them. -/
def finishValidation (cards lastPlay : List Card) (isFirstPlay : Bool)
    (playType : PlayType) (fiveCardType : FiveCardType) : Option PlayValidation :=
  if isFirstPlay || lastPlay.isEmpty then
    some { isValid := true, playType := playType, fiveCardType := fiveCardType }
  else if cards.length ≠ lastPlay.length then
    some { playType := playType, fiveCardType := fiveCardType,
           errorMessage := "Must play same number of cards as last play" }
  else
    match doesPlayBeat cards lastPlay with
    | none => none
    | some b =>
        if b then
          some { isValid := true, playType := playType, fiveCardType := fiveCardType }
        else
          some { playType := playType, fiveCardType := fiveCardType,
                 errorMessage := "Play does not beat the previous play" }

/-- Embeds `GameRules::validatePlay` (`GameRules.cpp`): the decision sequence, each
branch building the `PlayValidation` the source builds there.  The
`result.fiveCardType` field is set only inside the `FiveCard` branch, as in
the source.  A propagated exception (only possible through `doesPlayBeat`)
would surface as `none`. -/
def validatePlay (cards lastPlay : List Card)
    (isFirstPlay mustIncludeThreeOfDiamonds : Bool) : Option PlayValidation :=
  if cards.isEmpty then
    some { errorMessage := "No cards selected" }
  else if mustIncludeThreeOfDiamonds && !containsThreeOfDiamonds cards then
    some { errorMessage := "First play must include 3 of Diamonds" }
  else
    let playType := determinePlayType cards
    if playType == PlayType.Invalid then
      some { playType := playType, errorMessage := "Invalid card combination" }
    else if playType == PlayType.FiveCard then
      let fiveCardType := determineFiveCardType cards
      if fiveCardType == FiveCardType.None then
        some { playType := playType, fiveCardType := fiveCardType,
               errorMessage := "Invalid five-card combination" }
      else finishValidation cards lastPlay isFirstPlay playType fiveCardType
    else finishValidation cards lastPlay isFirstPlay playType FiveCardType.None

end GameRules

/-- Embeds `Card::charToRank` (`Card.cpp`): case-insensitive rank character;
both `T` and `1` (from "10") give Ten; unknown characters throw
(here: `none`). -/
def charToRank (c : Char) : Option Rank :=
  match c.toUpper with
  | '3' => some Rank.Three
  | '4' => some Rank.Four
  | '5' => some Rank.Five
  | '6' => some Rank.Six
  | '7' => some Rank.Seven
  | '8' => some Rank.Eight
  | '9' => some Rank.Nine
  | 'T' => some Rank.Ten
  | '1' => some Rank.Ten
  | 'J' => some Rank.Jack
  | 'Q' => some Rank.Queen
  | 'K' => some Rank.King
  | 'A' => some Rank.Ace
  | '2' => some Rank.Two
  | _   => none

/-- Embeds `Card::charToSuit` (`Card.cpp`): case-insensitive suit character;
unknown characters throw (here: `none`). -/
def charToSuit (c : Char) : Option Suit :=
  match c.toUpper with
  | 'D' => some Suit.Diamonds
  | 'C' => some Suit.Clubs
  | 'H' => some Suit.Hearts
  | 'S' => some Suit.Spades
  | _   => none

/-- Embeds `Card::rankToChar` (`Card.cpp`): single-character rank, with `'T'` for
Ten. -/
def rankToChar : Rank → Char
  | Rank.Three => '3'
  | Rank.Four  => '4'
  | Rank.Five  => '5'
  | Rank.Six   => '6'
  | Rank.Seven => '7'
  | Rank.Eight => '8'
  | Rank.Nine  => '9'
  | Rank.Ten   => 'T'
  | Rank.Jack  => 'J'
  | Rank.Queen => 'Q'
  | Rank.King  => 'K'
  | Rank.Ace   => 'A'
  | Rank.Two   => '2'

/-- Embeds `Card::suitToChar` (`Card.cpp`). -/
def suitToChar : Suit → Char
  | Suit.Diamonds => 'D'
  | Suit.Clubs    => 'C'
  | Suit.Hearts   => 'H'
  | Suit.Spades   => 'S'

/-- Embeds `Card::toString` (`Card.cpp`): `getRankChar()` followed by
`getSuitChar()`. -/
def cardToString (c : Card) : String :=
  String.mk [rankToChar c.rank, suitToChar c.suit]

/-- Embeds `Card::Card(const std::string&)` (`Card.cpp`): the string constructor.
Length < 2 throws; a leading `"10"` of a string of length ≥ 3 is the
two-character ten rank (suit at position 2), otherwise the rank is the
first character (suit at position 1); the rank is parsed from the first
rank character and overridden to Ten for the `"10"` form; trailing
characters beyond the suit position are ignored, exactly as in the
source. -/
def cardFromString (s : String) : Option Card :=
  let cs := s.data
  if cs.length < 2 then none
  else
    let isTen := decide (3 ≤ cs.length) && (cs.take 2 == ['1', '0'])
    let suitPos := if isTen then 2 else 1
    match charToRank (cs.headD ' ') with
    | none => none
    | some r =>
        let rank := if isTen then Rank.Ten else r
        match cs.get? suitPos with
        | none => none
        | some suitChar =>
            match charToSuit suitChar with
            | none => none
            | some suit => some (Card.mk rank suit)

/-!  Spec-side definitions (used to state refinement claims) and concrete
hands used in example parts of claims. -/

/-- Modelled from the spec, §4.2: "sort by rank; every adjacent pair of
sorted ranks differs by exactly 1 rank-step" — the reference definition of
a straight, phrased directly on the sorted sequence of rank values. -/
def straightSpec (cards : List Card) : Prop :=
  cards.length = 5 ∧
    List.Chain' (fun a b : Nat => b = a + 1)
      ((cards.map fun c => c.rank.val).insertionSort (· ≤ ·))

/-- A would-be wraparound run King-Ace-Two-Three-Four (suits arbitrary). -/
def wrapHand : List Card :=
  [⟨Rank.King, Suit.Diamonds⟩, ⟨Rank.Ace, Suit.Clubs⟩, ⟨Rank.Two, Suit.Hearts⟩,
   ⟨Rank.Three, Suit.Spades⟩, ⟨Rank.Four, Suit.Diamonds⟩]

/-- The top straight Jack-Queen-King-Ace-Two (suits arbitrary). -/
def topStraightHand : List Card :=
  [⟨Rank.Jack, Suit.Diamonds⟩, ⟨Rank.Queen, Suit.Clubs⟩, ⟨Rank.King, Suit.Hearts⟩,
   ⟨Rank.Ace, Suit.Spades⟩, ⟨Rank.Two, Suit.Diamonds⟩]

/-- A full house: three Threes and two Fours. -/
def fullHouseHand : List Card :=
  [⟨Rank.Three, Suit.Diamonds⟩, ⟨Rank.Three, Suit.Clubs⟩, ⟨Rank.Three, Suit.Hearts⟩,
   ⟨Rank.Four, Suit.Spades⟩, ⟨Rank.Four, Suit.Diamonds⟩]

instance : IsAntisymm Rank (fun a b => a.val ≤ b.val) :=
  ⟨by decide⟩

/-- A four of a kind: four Fives and a Six. -/
def fourKindHand : List Card :=
  [⟨Rank.Five, Suit.Diamonds⟩, ⟨Rank.Five, Suit.Clubs⟩, ⟨Rank.Five, Suit.Hearts⟩,
   ⟨Rank.Five, Suit.Spades⟩, ⟨Rank.Six, Suit.Diamonds⟩]

/-!  Helper lemmas about the ordering primitive. -/

theorem Card.code_inj : ∀ a b : Card, a.code = b.code → a = b := by decide

theorem Card.lt_iff_code : ∀ a b : Card, a.lt b = true ↔ a.code < b.code := by decide

theorem Card.lt_irrefl : ∀ a : Card, a.lt a = false := by decide

/-- Turning an iff of Bool coercions into a Bool equation. -/
theorem bool_eq_of_iff {a b : Bool} (h : a = true ↔ b = true) : a = b := by
  cases a <;> cases b <;> simp_all

namespace GameRules

/-!  Lemmas about `sortByRank` and `sortedRanks`. -/

theorem sortByRank_perm (l : List Card) : (sortByRank l).Perm l :=
  List.perm_insertionSort rankLE l

theorem sortedRanks_perm_map (l : List Card) :
    (sortedRanks l).Perm (l.map Card.rank) :=
  (sortByRank_perm l).map Card.rank

theorem sortedRanks_length (l : List Card) : (sortedRanks l).length = l.length := by
  have h := (sortedRanks_perm_map l).length_eq
  simpa using h

theorem sortedRanks_sorted (l : List Card) :
    (sortedRanks l).Pairwise (fun a b : Rank => a.val ≤ b.val) := by
  have h : (sortByRank l).Pairwise rankLE := List.sorted_insertionSort rankLE l
  rw [sortedRanks, List.pairwise_map]
  exact h.imp (fun hab => hab)

theorem sortedRanks_eq_of_perm {l₁ l₂ : List Card} (h : l₁.Perm l₂) :
    sortedRanks l₁ = sortedRanks l₂ := by
  refine List.eq_of_perm_of_sorted ?_ (sortedRanks_sorted l₁) (sortedRanks_sorted l₂)
  exact (sortedRanks_perm_map l₁).trans ((h.map Card.rank).trans (sortedRanks_perm_map l₂).symm)

/-!  Lemmas about `getHighestCard`. -/

theorem foldl_max_choice (rest : List Card) (c : Card) :
    rest.foldl (fun h x => if Card.lt h x then x else h) c = c ∨
      rest.foldl (fun h x => if Card.lt h x then x else h) c ∈ rest := by
  induction rest generalizing c with
  | nil => exact Or.inl rfl
  | cons x xs ih =>
      simp only [List.foldl_cons]
      rcases ih (if Card.lt c x then x else c) with h | h
      · rw [h]
        split
        · exact Or.inr (List.mem_cons_self x xs)
        · exact Or.inl rfl
      · exact Or.inr (List.mem_cons_of_mem x h)

theorem foldl_max_ub (rest : List Card) (c : Card) :
    c.code ≤ (rest.foldl (fun h x => if Card.lt h x then x else h) c).code ∧
      ∀ x ∈ rest, x.code ≤ (rest.foldl (fun h x => if Card.lt h x then x else h) c).code := by
  induction rest generalizing c with
  | nil => exact ⟨Nat.le_refl _, by simp⟩
  | cons x xs ih =>
      simp only [List.foldl_cons]
      obtain ⟨h1, h2⟩ := ih (if Card.lt c x then x else c)
      have hcx : c.code ≤ (if Card.lt c x then x else c).code ∧
          x.code ≤ (if Card.lt c x then x else c).code := by
        by_cases h : Card.lt c x = true
        · rw [if_pos h]
          exact ⟨Nat.le_of_lt ((Card.lt_iff_code c x).mp h), Nat.le_refl _⟩
        · rw [if_neg h]
          refine ⟨Nat.le_refl _, ?_⟩
          have hnot : ¬ c.code < x.code := fun hc => h ((Card.lt_iff_code c x).mpr hc)
          omega
      refine ⟨Nat.le_trans hcx.1 h1, ?_⟩
      intro y hy
      rcases List.mem_cons.mp hy with rfl | hy
      · exact Nat.le_trans hcx.2 h1
      · exact h2 y hy

theorem getHighestCard_spec {l : List Card} {m : Card}
    (h : getHighestCard l = some m) : m ∈ l ∧ ∀ x ∈ l, x.code ≤ m.code := by
  cases l with
  | nil => simp [getHighestCard] at h
  | cons c rest =>
      simp only [getHighestCard, Option.some.injEq] at h
      subst h
      constructor
      · rcases foldl_max_choice rest c with h | h
        · rw [h]; exact List.mem_cons_self c rest
        · exact List.mem_cons_of_mem c h
      · intro x hx
        obtain ⟨h1, h2⟩ := foldl_max_ub rest c
        rcases List.mem_cons.mp hx with rfl | hx
        · exact h1
        · exact h2 x hx

theorem getHighestCard_ne_none {l : List Card} (h : l ≠ []) :
    ∃ m, getHighestCard l = some m := by
  cases l with
  | nil => exact absurd rfl h
  | cons c rest => exact ⟨_, rfl⟩

theorem getHighestCard_eq_of_perm {l₁ l₂ : List Card} (h : l₁.Perm l₂) :
    getHighestCard l₁ = getHighestCard l₂ := by
  cases l₁ with
  | nil =>
      have : l₂ = [] := h.symm.eq_nil
      rw [this]
  | cons c rest =>
      have h₂ : l₂ ≠ [] := by
        intro hnil
        rw [hnil] at h
        exact List.cons_ne_nil c rest h.eq_nil
      obtain ⟨m₂, hm₂⟩ := getHighestCard_ne_none h₂
      have hm₁ : getHighestCard (c :: rest) = some
          (rest.foldl (fun h x => if Card.lt h x then x else h) c) := rfl
      obtain ⟨hmem₁, hub₁⟩ := getHighestCard_spec hm₁
      obtain ⟨hmem₂, hub₂⟩ := getHighestCard_spec hm₂
      rw [hm₁, hm₂]
      congr 1
      apply Card.code_inj
      have hle₁ := hub₂ _ (h.mem_iff.mp hmem₁)
      have hle₂ := hub₁ _ (h.mem_iff.mpr hmem₂)
      omega

/-!  Characterizations and permutation invariance of the shape tests. -/

theorem isFlush_iff (l : List Card) :
    isFlush l = true ↔ l.length = 5 ∧ ∃ s, ∀ c ∈ l, c.suit = s := by
  rw [isFlush.eq_def]
  by_cases hlen : l.length = 5
  · rw [if_neg (by simpa using hlen)]
    cases l with
    | nil => simp at hlen
    | cons c rest =>
        simp only [hlen, true_and, List.all_eq_true, beq_iff_eq]
        constructor
        · intro h
          exact ⟨c.suit, by
            intro x hx
            rcases List.mem_cons.mp hx with rfl | hx
            · rfl
            · exact h x hx⟩
        · rintro ⟨s, hs⟩ x hx
          rw [hs x (List.mem_cons_of_mem c hx), hs c (List.mem_cons_self c rest)]
  · rw [if_pos (by simpa using hlen)]
    simp [hlen]

theorem isPair_iff (l : List Card) :
    isPair l = true ↔ l.length = 2 ∧ ∃ r, ∀ c ∈ l, c.rank = r := by
  match l with
  | [] => simp [isPair]
  | [a] => simp [isPair]
  | [a, b] =>
      simp only [isPair, beq_iff_eq, List.length_cons, List.length_nil, true_and]
      constructor
      · intro h
        exact ⟨a.rank, by
          intro x hx
          rcases List.mem_cons.mp hx with rfl | hx
          · rfl
          · rcases List.mem_cons.mp hx with rfl | hx
            · exact h.symm
            · simp at hx⟩
      · rintro ⟨r, hr⟩
        rw [hr a (by simp), hr b (by simp)]
  | a :: b :: c :: rest => simp [isPair]

theorem isTriple_iff (l : List Card) :
    isTriple l = true ↔ l.length = 3 ∧ ∃ r, ∀ c ∈ l, c.rank = r := by
  match l with
  | [] => simp [isTriple]
  | [a] => simp [isTriple]
  | [a, b] => simp [isTriple]
  | [a, b, c] =>
      simp only [isTriple, Bool.and_eq_true, beq_iff_eq, List.length_cons,
        List.length_nil, true_and]
      constructor
      · rintro ⟨h1, h2⟩
        refine ⟨a.rank, ?_⟩
        intro x hx
        rcases List.mem_cons.mp hx with rfl | hx
        · rfl
        · rcases List.mem_cons.mp hx with rfl | hx
          · exact h1.symm
          · rcases List.mem_cons.mp hx with rfl | hx
            · rw [← h2, ← h1]
            · simp at hx
      · rintro ⟨r, hr⟩
        rw [hr a (by simp), hr b (by simp), hr c (by simp)]
        exact ⟨rfl, rfl⟩
  | a :: b :: c :: d :: rest => simp [isTriple]

theorem isPair_perm {l₁ l₂ : List Card} (h : l₁.Perm l₂) : isPair l₁ = isPair l₂ := by
  refine bool_eq_of_iff ?_
  rw [isPair_iff, isPair_iff, h.length_eq]
  constructor
  · rintro ⟨hl, r, hr⟩
    exact ⟨hl, r, fun c hc => hr c (h.mem_iff.mpr hc)⟩
  · rintro ⟨hl, r, hr⟩
    exact ⟨hl, r, fun c hc => hr c (h.mem_iff.mp hc)⟩

theorem isTriple_perm {l₁ l₂ : List Card} (h : l₁.Perm l₂) : isTriple l₁ = isTriple l₂ := by
  refine bool_eq_of_iff ?_
  rw [isTriple_iff, isTriple_iff, h.length_eq]
  constructor
  · rintro ⟨hl, r, hr⟩
    exact ⟨hl, r, fun c hc => hr c (h.mem_iff.mpr hc)⟩
  · rintro ⟨hl, r, hr⟩
    exact ⟨hl, r, fun c hc => hr c (h.mem_iff.mp hc)⟩

theorem isFlush_perm {l₁ l₂ : List Card} (h : l₁.Perm l₂) : isFlush l₁ = isFlush l₂ := by
  refine bool_eq_of_iff ?_
  rw [isFlush_iff, isFlush_iff, h.length_eq]
  constructor
  · rintro ⟨hl, s, hs⟩
    exact ⟨hl, s, fun c hc => hs c (h.mem_iff.mpr hc)⟩
  · rintro ⟨hl, s, hs⟩
    exact ⟨hl, s, fun c hc => hs c (h.mem_iff.mp hc)⟩

theorem isStraight_perm {l₁ l₂ : List Card} (h : l₁.Perm l₂) :
    isStraight l₁ = isStraight l₂ := by
  rw [isStraight, isStraight, h.length_eq, sortedRanks_eq_of_perm h]

theorem isFullHouse_perm {l₁ l₂ : List Card} (h : l₁.Perm l₂) :
    isFullHouse l₁ = isFullHouse l₂ := by
  rw [isFullHouse, isFullHouse, h.length_eq, sortedRanks_eq_of_perm h]

theorem isFourOfAKind_perm {l₁ l₂ : List Card} (h : l₁.Perm l₂) :
    isFourOfAKind l₁ = isFourOfAKind l₂ := by
  rw [isFourOfAKind, isFourOfAKind, h.length_eq, sortedRanks_eq_of_perm h]

theorem determineFiveCardType_perm {l₁ l₂ : List Card} (h : l₁.Perm l₂) :
    determineFiveCardType l₁ = determineFiveCardType l₂ := by
  rw [determineFiveCardType, determineFiveCardType, h.length_eq, isStraightFlush,
    isStraightFlush, isStraight_perm h, isFlush_perm h, isFullHouse_perm h,
    isFourOfAKind_perm h]

theorem determinePlayType_perm {l₁ l₂ : List Card} (h : l₁.Perm l₂) :
    determinePlayType l₁ = determinePlayType l₂ := by
  rw [determinePlayType, determinePlayType, h.length_eq, isPair_perm h, isTriple_perm h,
    determineFiveCardType_perm h]

/-!  Length facts read off `determinePlayType`. -/

theorem determinePlayType_single_length {l : List Card}
    (h : determinePlayType l = PlayType.Single) : l.length = 1 := by
  rw [determinePlayType] at h
  split at h
  · simpa using ‹(l.length == 1) = true›
  · split at h
    · exact absurd h (by simp)
    · split at h
      · exact absurd h (by simp)
      · split at h
        · exact absurd h (by simp)
        · exact absurd h (by simp)

theorem determinePlayType_fiveCard_length {l : List Card}
    (h : determinePlayType l = PlayType.FiveCard) : l.length = 5 := by
  rw [determinePlayType] at h
  split at h
  · exact absurd h (by simp)
  · split at h
    · exact absurd h (by simp)
    · split at h
      · exact absurd h (by simp)
      · split at h
        · have := Bool.and_eq_true _ _ |>.mp ‹_› |>.1
          simpa using this
        · exact absurd h (by simp)

/-!  The comparators never reach the `getHighestCard` error branch. -/

theorem pairBeats_ne_none (np lp : List Card) : pairBeats np lp ≠ none := by
  rw [pairBeats]
  split
  · simp
  · rename_i hsz
    simp only [Bool.or_eq_true, decide_eq_true_eq, not_or] at hsz
    obtain ⟨m₁, hm₁⟩ := getHighestCard_ne_none (l := np) (by
      intro hnil; rw [hnil] at hsz; simp at hsz)
    obtain ⟨m₂, hm₂⟩ := getHighestCard_ne_none (l := lp) (by
      intro hnil; rw [hnil] at hsz; simp at hsz)
    rw [hm₁, hm₂]
    simp

theorem tripleBeats_ne_none (np lp : List Card) : tripleBeats np lp ≠ none := by
  rw [tripleBeats]
  split
  · simp
  · rename_i hsz
    simp only [Bool.or_eq_true, decide_eq_true_eq, not_or] at hsz
    obtain ⟨m₁, hm₁⟩ := getHighestCard_ne_none (l := np) (by
      intro hnil; rw [hnil] at hsz; simp at hsz)
    obtain ⟨m₂, hm₂⟩ := getHighestCard_ne_none (l := lp) (by
      intro hnil; rw [hnil] at hsz; simp at hsz)
    rw [hm₁, hm₂]
    simp

theorem fiveCardBeats_ne_none {np lp : List Card} (hn : np ≠ []) (hl : lp ≠ []) :
    fiveCardBeats np lp ≠ none := by
  rw [fiveCardBeats]
  obtain ⟨m₁, hm₁⟩ := getHighestCard_ne_none hn
  obtain ⟨m₂, hm₂⟩ := getHighestCard_ne_none hl
  split
  · simp
  · split
    · simp
    · rw [hm₁, hm₂]
      simp

theorem doesPlayBeat_ne_none (np lp : List Card) : doesPlayBeat np lp ≠ none := by
  rw [doesPlayBeat]
  split
  · simp
  · rename_i hlp
    have hlpne : lp ≠ [] := by
      intro hnil; rw [hnil] at hlp; simp at hlp
    split
    · simp
    · rename_i hsz
      have hlen : np.length = lp.length := by
        by_contra hne
        exact hsz (by simpa using hne)
      have hnpne : np ≠ [] := by
        intro hnil
        rw [hnil] at hlen
        exact hlpne (List.length_eq_zero.mp hlen.symm)
      split
      · rename_i hsingle
        obtain ⟨a, ha⟩ := List.exists_mem_of_ne_nil np hnpne
        obtain ⟨b, hb⟩ := List.exists_mem_of_ne_nil lp hlpne
        cases np with
        | nil => exact absurd rfl hnpne
        | cons x xs =>
            cases lp with
            | nil => exact absurd rfl hlpne
            | cons y ys => simp
      · exact pairBeats_ne_none np lp
      · exact tripleBeats_ne_none np lp
      · exact fiveCardBeats_ne_none hnpne hlpne
      · simp

/-!  Shape-exclusivity lemmas. -/

theorem exists_five {α : Type} {l : List α} (h : l.length = 5) :
    ∃ a b c d e, l = [a, b, c, d, e] := by
  rcases l with _ | ⟨a, _ | ⟨b, _ | ⟨c, _ | ⟨d, _ | ⟨e, rest⟩⟩⟩⟩⟩ <;> simp_all

theorem consec5 {r0 r1 r2 r3 r4 : Rank}
    (h : consecutiveRanks [r0, r1, r2, r3, r4] = true) :
    r1.val = r0.val + 1 ∧ r2.val = r1.val + 1 ∧ r3.val = r2.val + 1 ∧
      r4.val = r3.val + 1 := by
  simp only [consecutiveRanks, Bool.and_eq_true, beq_iff_eq] at h
  tauto

theorem fullHousePattern5 {r0 r1 r2 r3 r4 : Rank} :
    fullHousePattern [r0, r1, r2, r3, r4] = true ↔
      (r0 = r1 ∧ r1 = r2 ∧ r3 = r4) ∨ (r0 = r1 ∧ r2 = r3 ∧ r3 = r4) := by
  simp [fullHousePattern, Bool.and_eq_true, Bool.or_eq_true, beq_iff_eq, and_assoc]

theorem fourOfAKindPattern5 {r0 r1 r2 r3 r4 : Rank} :
    fourOfAKindPattern [r0, r1, r2, r3, r4] = true ↔
      (r0 = r1 ∧ r1 = r2 ∧ r2 = r3) ∨ (r1 = r2 ∧ r2 = r3 ∧ r3 = r4) := by
  simp [fourOfAKindPattern, Bool.and_eq_true, Bool.or_eq_true, beq_iff_eq, and_assoc]

theorem isStraight_length {l : List Card} (h : isStraight l = true) : l.length = 5 := by
  rw [isStraight, Bool.and_eq_true] at h
  simpa using h.1

theorem isFlush_length {l : List Card} (h : isFlush l = true) : l.length = 5 := by
  exact ((isFlush_iff l).mp h).1

theorem isFullHouse_length {l : List Card} (h : isFullHouse l = true) : l.length = 5 := by
  rw [isFullHouse, Bool.and_eq_true] at h
  simpa using h.1

theorem isFourOfAKind_length {l : List Card} (h : isFourOfAKind l = true) :
    l.length = 5 := by
  rw [isFourOfAKind, Bool.and_eq_true] at h
  simpa using h.1

theorem isFullHouse_eq_false_of_isStraight {l : List Card} (h : isStraight l = true) :
    isFullHouse l = false := by
  have hlen : l.length = 5 := isStraight_length h
  have hsr : (sortedRanks l).length = 5 := by rw [sortedRanks_length, hlen]
  obtain ⟨r0, r1, r2, r3, r4, hR⟩ := exists_five hsr
  have hcons : consecutiveRanks (sortedRanks l) = true := by
    rw [isStraight, Bool.and_eq_true] at h
    exact h.2
  rw [hR] at hcons
  obtain ⟨h1, h2, h3, h4⟩ := consec5 hcons
  rw [isFullHouse, hR]
  suffices hp : fullHousePattern [r0, r1, r2, r3, r4] = false by simp [hp]
  rw [Bool.eq_false_iff]
  intro hc
  rcases fullHousePattern5.mp hc with ⟨e1, _, _⟩ | ⟨e1, _, _⟩ <;>
    { rw [e1] at h1; omega }

theorem isFourOfAKind_eq_false_of_isStraight {l : List Card} (h : isStraight l = true) :
    isFourOfAKind l = false := by
  have hlen : l.length = 5 := isStraight_length h
  have hsr : (sortedRanks l).length = 5 := by rw [sortedRanks_length, hlen]
  obtain ⟨r0, r1, r2, r3, r4, hR⟩ := exists_five hsr
  have hcons : consecutiveRanks (sortedRanks l) = true := by
    rw [isStraight, Bool.and_eq_true] at h
    exact h.2
  rw [hR] at hcons
  obtain ⟨h1, h2, h3, h4⟩ := consec5 hcons
  rw [isFourOfAKind, hR]
  suffices hp : fourOfAKindPattern [r0, r1, r2, r3, r4] = false by simp [hp]
  rw [Bool.eq_false_iff]
  intro hc
  rcases fourOfAKindPattern5.mp hc with ⟨e1, _, _⟩ | ⟨e1, _, _⟩
  · rw [e1] at h1; omega
  · rw [e1] at h2; omega

theorem ranks_nodup_of_flush {l : List Card} (hf : isFlush l = true) (hnd : l.Nodup) :
    (sortedRanks l).Nodup := by
  obtain ⟨hlen, s, hs⟩ := (isFlush_iff l).mp hf
  have hmap : (l.map Card.rank).Nodup := by
    refine hnd.map_on ?_
    intro x hx y hy hxy
    have hx' := hs x hx
    have hy' := hs y hy
    cases x
    cases y
    simp_all
  exact (sortedRanks_perm_map l).symm.nodup hmap

theorem fullHousePattern_eq_false_of_nodup {R : List Rank} (h : R.Nodup) :
    fullHousePattern R = false := by
  match R with
  | [] => rfl
  | [r0] => rfl
  | [r0, r1] => rfl
  | [r0, r1, r2] => rfl
  | [r0, r1, r2, r3] => rfl
  | [r0, r1, r2, r3, r4] =>
      have h01 : r0 ≠ r1 := by
        simp only [List.nodup_cons, List.mem_cons] at h
        tauto
      rw [Bool.eq_false_iff]
      intro hc
      rcases fullHousePattern5.mp hc with ⟨e1, _, _⟩ | ⟨e1, _, _⟩ <;> exact h01 e1
  | r0 :: r1 :: r2 :: r3 :: r4 :: r5 :: rest => rfl

theorem fourOfAKindPattern_eq_false_of_nodup {R : List Rank} (h : R.Nodup) :
    fourOfAKindPattern R = false := by
  match R with
  | [] => rfl
  | [r0] => rfl
  | [r0, r1] => rfl
  | [r0, r1, r2] => rfl
  | [r0, r1, r2, r3] => rfl
  | [r0, r1, r2, r3, r4] =>
      have h01 : r0 ≠ r1 := by
        simp only [List.nodup_cons, List.mem_cons] at h
        tauto
      have h12 : r1 ≠ r2 := by
        simp only [List.nodup_cons, List.mem_cons] at h
        tauto
      rw [Bool.eq_false_iff]
      intro hc
      rcases fourOfAKindPattern5.mp hc with ⟨e1, _, _⟩ | ⟨e1, _, _⟩
      · exact h01 e1
      · exact h12 e1
  | r0 :: r1 :: r2 :: r3 :: r4 :: r5 :: rest => rfl

theorem isFullHouse_eq_false_of_flush {l : List Card} (hf : isFlush l = true)
    (hnd : l.Nodup) : isFullHouse l = false := by
  rw [isFullHouse]
  simp [fullHousePattern_eq_false_of_nodup (ranks_nodup_of_flush hf hnd)]

theorem isFourOfAKind_eq_false_of_flush {l : List Card} (hf : isFlush l = true)
    (hnd : l.Nodup) : isFourOfAKind l = false := by
  rw [isFourOfAKind]
  simp [fourOfAKindPattern_eq_false_of_nodup (ranks_nodup_of_flush hf hnd)]

theorem allSame_of_patterns {r0 r1 r2 r3 r4 : Rank}
    (hFH : fullHousePattern [r0, r1, r2, r3, r4] = true)
    (h4K : fourOfAKindPattern [r0, r1, r2, r3, r4] = true) :
    r0 = r1 ∧ r1 = r2 ∧ r2 = r3 ∧ r3 = r4 := by
  rcases fullHousePattern5.mp hFH with ⟨a1, a2, a3⟩ | ⟨a1, a2, a3⟩ <;>
    rcases fourOfAKindPattern5.mp h4K with ⟨b1, b2, b3⟩ | ⟨b1, b2, b3⟩ <;>
      subst_vars <;> exact ⟨rfl, rfl, rfl, rfl⟩

theorem rank_mem_sortedRanks {l : List Card} {c : Card} (hc : c ∈ l) :
    c.rank ∈ sortedRanks l :=
  (sortedRanks_perm_map l).symm.subset (List.mem_map_of_mem Card.rank hc)

theorem isFourOfAKind_eq_false_of_isFullHouse {l : List Card} (hnd : l.Nodup)
    (hFH : isFullHouse l = true) : isFourOfAKind l = false := by
  rw [Bool.eq_false_iff]
  intro h4K
  have hlen : l.length = 5 := isFullHouse_length hFH
  have hsr : (sortedRanks l).length = 5 := by rw [sortedRanks_length, hlen]
  obtain ⟨r0, r1, r2, r3, r4, hR⟩ := exists_five hsr
  have hFHp : fullHousePattern [r0, r1, r2, r3, r4] = true := by
    rw [isFullHouse, Bool.and_eq_true, hR] at hFH
    exact hFH.2
  have h4Kp : fourOfAKindPattern [r0, r1, r2, r3, r4] = true := by
    rw [isFourOfAKind, Bool.and_eq_true, hR] at h4K
    exact h4K.2
  obtain ⟨e1, e2, e3, e4⟩ := allSame_of_patterns hFHp h4Kp
  subst e4
  subst e3
  subst e2
  subst e1
  -- all five cards share rank r0, so their suits are five distinct suits
  have hall : ∀ c ∈ l, c.rank = r0 := by
    intro c hc
    have hm := rank_mem_sortedRanks hc
    rw [hR] at hm
    simpa using hm
  have hsuits : (l.map Card.suit).Nodup := by
    refine hnd.map_on ?_
    intro x hx y hy hxy
    have hrx := hall x hx
    have hry := hall y hy
    cases x
    cases y
    simp_all
  have hlen5 : (l.map Card.suit).length = 5 := by simpa using hlen
  have hle : (l.map Card.suit).length ≤ Fintype.card Suit := hsuits.length_le_card
  have hcard : Fintype.card Suit = 4 := by decide
  omega

/-!  Characterization of `determineFiveCardType` outputs. -/

theorem dft_eq_straightFlush_iff (l : List Card) :
    determineFiveCardType l = FiveCardType.StraightFlush ↔
      isStraight l = true ∧ isFlush l = true := by
  constructor
  · intro h
    rw [determineFiveCardType] at h
    split_ifs at h with h1 h2 h3 h4 h5 h6
    rw [isStraightFlush, Bool.and_eq_true] at h2
    exact h2
  · rintro ⟨hs, hf⟩
    rw [determineFiveCardType, if_neg (by simp [isStraight_length hs]),
      if_pos (show isStraightFlush l = true by simp [isStraightFlush, hs, hf])]

theorem dft_eq_fourOfAKind_iff (l : List Card) :
    determineFiveCardType l = FiveCardType.FourOfAKind ↔ isFourOfAKind l = true := by
  constructor
  · intro h
    rw [determineFiveCardType] at h
    split_ifs at h with h1 h2 h3 h4 h5 h6
    exact h3
  · intro h4K
    have hs : isStraight l = false := by
      rw [Bool.eq_false_iff]
      intro hs
      have := isFourOfAKind_eq_false_of_isStraight hs
      simp_all
    have hSF : ¬ isStraightFlush l = true := by
      simp [isStraightFlush, hs]
    rw [determineFiveCardType, if_neg (by simp [isFourOfAKind_length h4K]),
      if_neg hSF, if_pos h4K]

theorem dft_eq_fullHouse_iff (l : List Card) (hnd : l.Nodup) :
    determineFiveCardType l = FiveCardType.FullHouse ↔ isFullHouse l = true := by
  constructor
  · intro h
    rw [determineFiveCardType] at h
    split_ifs at h with h1 h2 h3 h4 h5 h6
    exact h4
  · intro hFH
    have hs : isStraight l = false := by
      rw [Bool.eq_false_iff]
      intro hs
      have := isFullHouse_eq_false_of_isStraight hs
      simp_all
    have hSF : ¬ isStraightFlush l = true := by
      simp [isStraightFlush, hs]
    have h4K : ¬ isFourOfAKind l = true := by
      have := isFourOfAKind_eq_false_of_isFullHouse hnd hFH
      simp_all
    rw [determineFiveCardType, if_neg (by simp [isFullHouse_length hFH]),
      if_neg hSF, if_neg h4K, if_pos hFH]

theorem dft_eq_flush_iff (l : List Card) (hnd : l.Nodup) :
    determineFiveCardType l = FiveCardType.Flush ↔
      isFlush l = true ∧ isStraight l = false := by
  constructor
  · intro h
    rw [determineFiveCardType] at h
    split_ifs at h with h1 h2 h3 h4 h5 h6
    refine ⟨h5, ?_⟩
    rw [Bool.eq_false_iff]
    intro hs
    exact h2 (by simp [isStraightFlush, hs, h5])
  · rintro ⟨hf, hs⟩
    have hSF : ¬ isStraightFlush l = true := by
      simp [isStraightFlush, hs]
    have h4K : ¬ isFourOfAKind l = true := by
      have := isFourOfAKind_eq_false_of_flush hf hnd
      simp_all
    have hFH : ¬ isFullHouse l = true := by
      have := isFullHouse_eq_false_of_flush hf hnd
      simp_all
    rw [determineFiveCardType, if_neg (by simp [isFlush_length hf]),
      if_neg hSF, if_neg h4K, if_neg hFH, if_pos hf]

theorem dft_eq_straight_iff (l : List Card) :
    determineFiveCardType l = FiveCardType.Straight ↔
      isStraight l = true ∧ isFlush l = false := by
  constructor
  · intro h
    rw [determineFiveCardType] at h
    split_ifs at h with h1 h2 h3 h4 h5 h6
    exact ⟨h6, Bool.eq_false_iff.mpr h5⟩
  · rintro ⟨hs, hf⟩
    have hSF : ¬ isStraightFlush l = true := by
      simp [isStraightFlush, hf]
    have h4K : ¬ isFourOfAKind l = true := by
      have := isFourOfAKind_eq_false_of_isStraight hs
      simp_all
    have hFH : ¬ isFullHouse l = true := by
      have := isFullHouse_eq_false_of_isStraight hs
      simp_all
    have hfl : ¬ isFlush l = true := by simp [hf]
    rw [determineFiveCardType, if_neg (by simp [isStraight_length hs]),
      if_neg hSF, if_neg h4K, if_neg hFH, if_neg hfl, if_pos hs]

/-- A convenient unfolding of `fiveCardBeats`. -/
theorem fiveCardBeats_eq (n l : List Card) :
    fiveCardBeats n l =
      (if getFiveCardRank (determineFiveCardType n) >
            getFiveCardRank (determineFiveCardType l) then some true
       else if getFiveCardRank (determineFiveCardType n) <
            getFiveCardRank (determineFiveCardType l) then some false
       else
         match getHighestCard n, getHighestCard l with
         | some newHigh, some lastHigh => some (Card.gt newHigh lastHigh)
         | _, _ => none) := rfl

/-!  Claim theorems. -/

/-- Claim C2: the card comparison operators form a strict total order -- for
all cards exactly one of `a<b`, `a==b`, `a>b` holds; rank is compared first
along the underlying 3..15 strength scale and suit (`Diamonds < Clubs <
Hearts < Spades`) breaks rank ties; every Two outranks every Ace, and every
Ace outranks every King. -/
theorem C2_card_order_trichotomy :
    ∀ a b : Card,
      ((Card.lt a b = true ∧ a ≠ b ∧ Card.gt a b = false) ∨
        (a = b ∧ Card.lt a b = false ∧ Card.gt a b = false) ∨
        (Card.gt a b = true ∧ a ≠ b ∧ Card.lt a b = false))
      ∧ (Card.lt a b = true ↔
          (a.rank.val < b.rank.val ∨ (a.rank = b.rank ∧ a.suit.val < b.suit.val)))
      ∧ (a.rank = Rank.Two → b.rank = Rank.Ace → Card.gt a b = true)
      ∧ (a.rank = Rank.Ace → b.rank = Rank.King → Card.gt a b = true) := by
  decide

/-- Witness for C2 at a concrete pair of cards: the Two of Diamonds outranks
the Ace of Spades. -/
theorem C2_witness :
    Card.gt (Card.mk Rank.Two Suit.Diamonds) (Card.mk Rank.Ace Suit.Spades) = true :=
  (C2_card_order_trichotomy (Card.mk Rank.Two Suit.Diamonds)
    (Card.mk Rank.Ace Suit.Spades)).2.2.1 rfl rfl

/-- Claim C3: five-card comparison first compares the fixed sub-shape ranks
Straight(1) < Flush(2) < FullHouse(3) < FourOfAKind(4) < StraightFlush(5);
a strictly higher sub-shape beats regardless of card values, equal
sub-shapes fall back to the highest card, an identical maximum card does
not beat, and a full house never beats a four of a kind. -/
theorem C3_fiveCardBeats_spec (n l : List Card) (cn cl : Card) :
    (getFiveCardRank FiveCardType.Straight = 1 ∧
      getFiveCardRank FiveCardType.Flush = 2 ∧
      getFiveCardRank FiveCardType.FullHouse = 3 ∧
      getFiveCardRank FiveCardType.FourOfAKind = 4 ∧
      getFiveCardRank FiveCardType.StraightFlush = 5)
    ∧ (getFiveCardRank (determineFiveCardType n) >
          getFiveCardRank (determineFiveCardType l) →
        fiveCardBeats n l = some true)
    ∧ (getFiveCardRank (determineFiveCardType n) <
          getFiveCardRank (determineFiveCardType l) →
        fiveCardBeats n l = some false)
    ∧ (determineFiveCardType n = determineFiveCardType l →
        getHighestCard n = some cn → getHighestCard l = some cl →
        fiveCardBeats n l = some (Card.gt cn cl))
    ∧ (determineFiveCardType n = determineFiveCardType l →
        getHighestCard n = some cn → getHighestCard l = some cl → cn = cl →
        fiveCardBeats n l = some false)
    ∧ (determineFiveCardType n = FiveCardType.FullHouse →
        determineFiveCardType l = FiveCardType.FourOfAKind →
        fiveCardBeats n l = some false) := by
  refine ⟨⟨rfl, rfl, rfl, rfl, rfl⟩, ?_, ?_, ?_, ?_, ?_⟩
  · intro h
    rw [fiveCardBeats_eq, if_pos h]
  · intro h
    rw [fiveCardBeats_eq, if_neg (by omega), if_pos h]
  · intro htype hcn hcl
    rw [fiveCardBeats_eq, htype, if_neg (by omega), if_neg (by omega), hcn, hcl]
  · intro htype hcn hcl hcc
    rw [fiveCardBeats_eq, htype, if_neg (by omega), if_neg (by omega), hcn, hcl, hcc]
    simp only [Card.gt, Card.lt_irrefl]
  · intro hn hl
    rw [fiveCardBeats_eq, hn, hl, if_neg (by decide), if_pos (by decide)]

/-- Witness for C3: the concrete full house 333-44 does not beat the
concrete four of a kind 5555-6. -/
theorem C3_witness : fiveCardBeats fullHouseHand fourKindHand = some false :=
  (C3_fiveCardBeats_spec fullHouseHand fourKindHand
      (Card.mk Rank.Three Suit.Diamonds) (Card.mk Rank.Three Suit.Diamonds)).2.2.2.2.2
    (by decide) (by decide)

/-- Claim C5: for 5-card sets without duplicate cards, straight-flush is
reported exactly when the straight and flush tests both hold individually,
each non-None sub-shape tag of the classifier corresponds to exactly one
shape predicate, and the five shape predicates (Straight-only, Flush-only,
FullHouse, FourOfAKind, StraightFlush) are pairwise mutually exclusive. -/
theorem C5_shape_exclusivity (cards : List Card) (hnd : cards.Nodup) :
    (isStraightFlush cards = true ↔ isStraight cards = true ∧ isFlush cards = true)
    ∧ (isStraight cards = true → isFlush cards = true →
        determineFiveCardType cards = FiveCardType.StraightFlush)
    ∧ (determineFiveCardType cards = FiveCardType.StraightFlush →
        isStraight cards = true ∧ isFlush cards = true)
    ∧ (determineFiveCardType cards = FiveCardType.FourOfAKind ↔
        isFourOfAKind cards = true)
    ∧ (determineFiveCardType cards = FiveCardType.FullHouse ↔
        isFullHouse cards = true)
    ∧ (determineFiveCardType cards = FiveCardType.Flush ↔
        isFlush cards = true ∧ isStraight cards = false)
    ∧ (determineFiveCardType cards = FiveCardType.Straight ↔
        isStraight cards = true ∧ isFlush cards = false)
    ∧ ¬((isStraight cards = true ∧ isFlush cards = false) ∧
        (isFlush cards = true ∧ isStraight cards = false))
    ∧ ¬((isStraight cards = true ∧ isFlush cards = false) ∧ isFullHouse cards = true)
    ∧ ¬((isStraight cards = true ∧ isFlush cards = false) ∧ isFourOfAKind cards = true)
    ∧ ¬((isStraight cards = true ∧ isFlush cards = false) ∧ isStraightFlush cards = true)
    ∧ ¬((isFlush cards = true ∧ isStraight cards = false) ∧ isFullHouse cards = true)
    ∧ ¬((isFlush cards = true ∧ isStraight cards = false) ∧ isFourOfAKind cards = true)
    ∧ ¬((isFlush cards = true ∧ isStraight cards = false) ∧ isStraightFlush cards = true)
    ∧ ¬(isFullHouse cards = true ∧ isFourOfAKind cards = true)
    ∧ ¬(isFullHouse cards = true ∧ isStraightFlush cards = true)
    ∧ ¬(isFourOfAKind cards = true ∧ isStraightFlush cards = true) := by
  refine ⟨?_, ?_, ?_, dft_eq_fourOfAKind_iff cards, dft_eq_fullHouse_iff cards hnd,
    dft_eq_flush_iff cards hnd, dft_eq_straight_iff cards,
    ?_, ?_, ?_, ?_, ?_, ?_, ?_, ?_, ?_, ?_⟩
  · rw [isStraightFlush, Bool.and_eq_true]
  · intro hs hf
    exact (dft_eq_straightFlush_iff cards).mpr ⟨hs, hf⟩
  · exact (dft_eq_straightFlush_iff cards).mp
  · rintro ⟨⟨hs, hf⟩, ⟨hf2, hs2⟩⟩
    simp_all
  · rintro ⟨⟨hs, hf⟩, hFH⟩
    have := isFullHouse_eq_false_of_isStraight hs
    simp_all
  · rintro ⟨⟨hs, hf⟩, h4K⟩
    have := isFourOfAKind_eq_false_of_isStraight hs
    simp_all
  · rintro ⟨⟨hs, hf⟩, hSF⟩
    rw [isStraightFlush, Bool.and_eq_true] at hSF
    simp_all
  · rintro ⟨⟨hf, hs⟩, hFH⟩
    have := isFullHouse_eq_false_of_flush hf hnd
    simp_all
  · rintro ⟨⟨hf, hs⟩, h4K⟩
    have := isFourOfAKind_eq_false_of_flush hf hnd
    simp_all
  · rintro ⟨⟨hf, hs⟩, hSF⟩
    rw [isStraightFlush, Bool.and_eq_true] at hSF
    simp_all
  · rintro ⟨hFH, h4K⟩
    have := isFourOfAKind_eq_false_of_isFullHouse hnd hFH
    simp_all
  · rintro ⟨hFH, hSF⟩
    rw [isStraightFlush, Bool.and_eq_true] at hSF
    have := isFullHouse_eq_false_of_isStraight hSF.1
    simp_all
  · rintro ⟨h4K, hSF⟩
    rw [isStraightFlush, Bool.and_eq_true] at hSF
    have := isFourOfAKind_eq_false_of_isStraight hSF.1
    simp_all

/-- Witness for C5: the concrete four of a kind 5555-6 is classified
FourOfAKind. -/
theorem C5_witness : determineFiveCardType fourKindHand = FiveCardType.FourOfAKind :=
  ((C5_shape_exclusivity fourKindHand (by decide)).2.2.2.1).mpr (by decide)

/-- Claim C7 counterexample: `doesPlayBeat` does NOT return false on every
size mismatch -- with an empty last play and a non-empty new play (sizes 1
and 0) it returns true. -/
theorem C7_counterexample :
    doesPlayBeat [Card.mk Rank.Three Suit.Diamonds] [] = some true ∧
      ([Card.mk Rank.Three Suit.Diamonds] : List Card).length ≠
        ([] : List Card).length := by
  decide

/-- Claim C7 as amended: whenever the last play is non-empty and the sizes
differ, `doesPlayBeat` returns false (when the last play is empty it
returns true regardless of the new play). -/
theorem C7_sizes_differ (np lp : List Card) (hne : lp ≠ [])
    (hsz : np.length ≠ lp.length) : doesPlayBeat np lp = some false := by
  rw [doesPlayBeat,
    if_neg (show ¬ lp.isEmpty = true from fun h => hne (List.isEmpty_iff.mp h)),
    if_pos hsz]

/-- Witness for the amended C7 at concrete plays of sizes 1 and 2. -/
theorem C7_witness :
    doesPlayBeat [Card.mk Rank.Three Suit.Diamonds]
      [Card.mk Rank.Four Suit.Diamonds, Card.mk Rank.Four Suit.Clubs] = some false :=
  C7_sizes_differ _ _ (by decide) (by decide)

/-- Claim C8 (code bug record): decoding the ten token `"10s"` and
re-encoding it through `Card::toString` yields `"TS"`, not the canonical
`"10S"` promised by the round-trip property and by the function's own
documentation. -/
theorem C8_ten_reencode :
    (cardFromString "10s").map cardToString = some "TS" ∧ ("TS" : String) ≠ "10S" := by
  decide

/-- The rank-step check of `isStraight` matches a `Chain'` over the rank
values. -/
theorem consecutiveRanks_iff_chain : ∀ R : List Rank,
    consecutiveRanks R = true ↔
      List.Chain' (fun a b : Nat => b = a + 1) (R.map Rank.val)
  | [] => by simp [consecutiveRanks]
  | [r] => by simp [consecutiveRanks]
  | r1 :: r2 :: rest => by
      rw [consecutiveRanks]
      simp only [Bool.and_eq_true, beq_iff_eq, List.map_cons, List.chain'_cons]
      rw [consecutiveRanks_iff_chain (r2 :: rest)]
      simp only [List.map_cons]

/-- Sorting the cards by rank and reading the rank values is the same as
sorting the rank values. -/
theorem sorted_vals_eq (cards : List Card) :
    (sortedRanks cards).map Rank.val =
      (cards.map fun c => c.rank.val).insertionSort (· ≤ ·) := by
  refine List.eq_of_perm_of_sorted (r := fun a b : Nat => a ≤ b) ?_ ?_ ?_
  · refine ((sortedRanks_perm_map cards).map Rank.val).trans ?_
    rw [List.map_map]
    exact (List.perm_insertionSort _ _).symm
  · show List.Pairwise (fun a b : Nat => a ≤ b) ((sortedRanks cards).map Rank.val)
    rw [List.pairwise_map]
    exact (sortedRanks_sorted cards).imp (fun h => h)
  · exact List.sorted_insertionSort _ _

/-- Claim C4: a five-card set is a straight iff, after sorting by rank,
every adjacent pair of ranks differs by exactly one step of the fixed 3..2
strength scale; there is no wraparound, so King-Ace-Two-Three-Four is not a
straight while Jack-Queen-King-Ace-Two is. -/
theorem C4_straight_reference :
    (∀ cards : List Card, isStraight cards = true ↔ straightSpec cards)
    ∧ isStraight wrapHand = false ∧ isStraight topStraightHand = true := by
  refine ⟨?_, by decide, by decide⟩
  intro cards
  rw [isStraight, Bool.and_eq_true, straightSpec, ← sorted_vals_eq]
  exact and_congr (by simp) (consecutiveRanks_iff_chain (sortedRanks cards))

/-- Embeds `determinePlayType` reports `FiveCard` only when the five-card
sub-shape is not `None`. -/
theorem dft_ne_none_of_playType_fiveCard {l : List Card}
    (h : determinePlayType l = PlayType.FiveCard) :
    determineFiveCardType l ≠ FiveCardType.None := by
  rw [determinePlayType] at h
  split_ifs at h with h1 h2 h3 h4
  rw [Bool.and_eq_true] at h4
  simpa using h4.2

/-- Claim C6: the play-type classifier against its reference definition --
size 1 is always Single; size 2 is Pair iff the two ranks agree, otherwise
Invalid; size 3 is Triple iff all three ranks agree, otherwise Invalid;
any size outside {1,2,3,5} is Invalid. -/
theorem C6_playType_reference (cards : List Card) (a b c : Card) :
    (cards.length = 1 → determinePlayType cards = PlayType.Single)
    ∧ (cards = [a, b] →
        ((determinePlayType cards = PlayType.Pair ↔ a.rank = b.rank) ∧
          (a.rank ≠ b.rank → determinePlayType cards = PlayType.Invalid)))
    ∧ (cards = [a, b, c] →
        ((determinePlayType cards = PlayType.Triple ↔
            (a.rank = b.rank ∧ b.rank = c.rank)) ∧
          (¬(a.rank = b.rank ∧ b.rank = c.rank) →
            determinePlayType cards = PlayType.Invalid)))
    ∧ (cards.length ≠ 1 → cards.length ≠ 2 → cards.length ≠ 3 →
        cards.length ≠ 5 → determinePlayType cards = PlayType.Invalid) := by
  refine ⟨?_, ?_, ?_, ?_⟩
  · intro h
    rw [determinePlayType, if_pos (by simp [h])]
  · rintro rfl
    by_cases hr : a.rank = b.rank
    · have hp : determinePlayType [a, b] = PlayType.Pair := by
        rw [determinePlayType, if_neg (by simp), if_pos (by simp [isPair, hr])]
      exact ⟨by simp [hp, hr], fun hne => absurd hr hne⟩
    · have hinv : determinePlayType [a, b] = PlayType.Invalid := by
        rw [determinePlayType, if_neg (by simp), if_neg (by simp [isPair, hr]),
          if_neg (by simp), if_neg (by simp)]
      exact ⟨by simp [hinv, hr], fun _ => hinv⟩
  · rintro rfl
    by_cases hr : a.rank = b.rank ∧ b.rank = c.rank
    · have hp : determinePlayType [a, b, c] = PlayType.Triple := by
        rw [determinePlayType, if_neg (by simp), if_neg (by simp),
          if_pos (by simp [isTriple, hr.1, hr.2])]
      exact ⟨by simp [hp, hr.1, hr.2], fun hne => absurd hr hne⟩
    · have hinv : determinePlayType [a, b, c] = PlayType.Invalid := by
        rw [determinePlayType, if_neg (by simp), if_neg (by simp),
          if_neg (by simpa [isTriple] using hr), if_neg (by simp)]
      exact ⟨by simp [hinv, hr], fun _ => hinv⟩
  · intro h1 h2 h3 h5
    rw [determinePlayType, if_neg (by simp [h1]), if_neg (by simp [h2]),
      if_neg (by simp [h3]), if_neg (by simp [h5])]

/-- Witness for C6 at a concrete single card. -/
theorem C6_witness :
    determinePlayType [Card.mk Rank.Three Suit.Diamonds] = PlayType.Single :=
  (C6_playType_reference [Card.mk Rank.Three Suit.Diamonds]
    (Card.mk Rank.Three Suit.Diamonds) (Card.mk Rank.Three Suit.Diamonds)
    (Card.mk Rank.Three Suit.Diamonds)).1 rfl

/-!  Permutation invariance of the comparators. -/

theorem pairBeats_perm {n₁ n₂ p₁ p₂ : List Card} (hn : n₁.Perm n₂) (hp : p₁.Perm p₂) :
    pairBeats n₁ p₁ = pairBeats n₂ p₂ := by
  rw [pairBeats, pairBeats, hn.length_eq, hp.length_eq,
    getHighestCard_eq_of_perm hn, getHighestCard_eq_of_perm hp]

theorem tripleBeats_perm {n₁ n₂ p₁ p₂ : List Card} (hn : n₁.Perm n₂) (hp : p₁.Perm p₂) :
    tripleBeats n₁ p₁ = tripleBeats n₂ p₂ := by
  rw [tripleBeats, tripleBeats, hn.length_eq, hp.length_eq,
    getHighestCard_eq_of_perm hn, getHighestCard_eq_of_perm hp]

theorem fiveCardBeats_perm {n₁ n₂ p₁ p₂ : List Card} (hn : n₁.Perm n₂)
    (hp : p₁.Perm p₂) : fiveCardBeats n₁ p₁ = fiveCardBeats n₂ p₂ := by
  rw [fiveCardBeats_eq, fiveCardBeats_eq, determineFiveCardType_perm hn,
    determineFiveCardType_perm hp, getHighestCard_eq_of_perm hn,
    getHighestCard_eq_of_perm hp]

theorem doesPlayBeat_perm {n₁ n₂ p₁ p₂ : List Card} (hn : n₁.Perm n₂)
    (hp : p₁.Perm p₂) : doesPlayBeat n₁ p₁ = doesPlayBeat n₂ p₂ := by
  have hpl := hp.length_eq
  have hnl := hn.length_eq
  have hpe : p₁.isEmpty = p₂.isEmpty := by
    cases p₁ <;> cases p₂ <;> simp_all
  rw [doesPlayBeat, doesPlayBeat, hpe, hnl, hpl, determinePlayType_perm hn]
  by_cases hempty : p₂.isEmpty = true
  · rw [if_pos hempty, if_pos hempty]
  · rw [if_neg hempty, if_neg hempty]
    by_cases hsz : n₂.length ≠ p₂.length
    · rw [if_pos hsz, if_pos hsz]
    · rw [if_neg hsz, if_neg hsz]
      cases hdt : determinePlayType n₂ with
      | Single =>
          have h1 : n₂.length = 1 := determinePlayType_single_length hdt
          obtain ⟨x, hx⟩ := List.length_eq_one.mp (hnl.trans h1)
          have hx₂ : n₂ = [x] := by
            rw [hx] at hn
            exact List.perm_singleton.mp hn.symm
          have hp1 : p₂.length = 1 := by omega
          obtain ⟨y, hy⟩ := List.length_eq_one.mp ((hpl.trans hp1))
          have hy₂ : p₂ = [y] := by
            rw [hy] at hp
            exact List.perm_singleton.mp hp.symm
          rw [hx, hx₂, hy, hy₂]
      | Pair => exact pairBeats_perm hn hp
      | Triple => exact tripleBeats_perm hn hp
      | FiveCard => exact fiveCardBeats_perm hn hp
      | Invalid => rfl

/-- Claim C10: classification and comparison are invariant under
permutation of the input card sequences -- permuting a card list changes
neither `determinePlayType` nor `determineFiveCardType`, and permuting
either argument of `doesPlayBeat` does not change its verdict. -/
theorem C10_permutation_invariance (l₁ l₂ n₁ n₂ p₁ p₂ : List Card) :
    (l₁.Perm l₂ →
      determinePlayType l₁ = determinePlayType l₂ ∧
        determineFiveCardType l₁ = determineFiveCardType l₂)
    ∧ (n₁.Perm n₂ → p₁.Perm p₂ → doesPlayBeat n₁ p₁ = doesPlayBeat n₂ p₂) := by
  exact ⟨fun h => ⟨determinePlayType_perm h, determineFiveCardType_perm h⟩,
    fun hn hp => doesPlayBeat_perm hn hp⟩

/-- Witness for C10: permuting the concrete full house and the four of a
kind changes nothing. -/
theorem C10_witness :
    determinePlayType
        [Card.mk Rank.Four Suit.Spades, Card.mk Rank.Three Suit.Diamonds,
         Card.mk Rank.Three Suit.Clubs, Card.mk Rank.Four Suit.Diamonds,
         Card.mk Rank.Three Suit.Hearts] = determinePlayType fullHouseHand ∧
      doesPlayBeat fullHouseHand fourKindHand =
        doesPlayBeat fullHouseHand
          [Card.mk Rank.Six Suit.Diamonds, Card.mk Rank.Five Suit.Diamonds,
           Card.mk Rank.Five Suit.Clubs, Card.mk Rank.Five Suit.Hearts,
           Card.mk Rank.Five Suit.Spades] :=
  ⟨((C10_permutation_invariance _ fullHouseHand fullHouseHand fullHouseHand
        fourKindHand fourKindHand).1 (by decide)).1,
    (C10_permutation_invariance fullHouseHand fullHouseHand fullHouseHand
        fullHouseHand fourKindHand _).2 (List.Perm.refl _) (by decide)⟩

/-- Claim C9: `validatePlay` is total and exception-free -- it always
returns a verdict, every rejection carries a non-empty reason string, the
`getHighestCard` error branch fires exactly on the empty set, and
`doesPlayBeat` (the only route from `validatePlay` to that branch) never
propagates it. -/
theorem C9_validatePlay_total (cards lastPlay np lp l : List Card)
    (isFirstPlay mustInclude : Bool) :
    (∃ v, validatePlay cards lastPlay isFirstPlay mustInclude = some v ∧
        (v.isValid = true ∨ v.errorMessage ≠ ""))
    ∧ (getHighestCard l = none ↔ l = [])
    ∧ doesPlayBeat np lp ≠ none := by
  refine ⟨?_, ?_, doesPlayBeat_ne_none np lp⟩
  · have hfin : ∀ (pt : PlayType) (fct : FiveCardType),
        ∃ v, finishValidation cards lastPlay isFirstPlay pt fct = some v ∧
          (v.isValid = true ∨ v.errorMessage ≠ "") := by
      intro pt fct
      rw [finishValidation]
      split_ifs with g1 g2
      · exact ⟨_, rfl, Or.inl rfl⟩
      · exact ⟨_, rfl, Or.inr
          (show ("Must play same number of cards as last play" : String) ≠ ""
            by decide)⟩
      · obtain ⟨b, hb⟩ :=
          Option.ne_none_iff_exists'.mp (doesPlayBeat_ne_none cards lastPlay)
        rw [hb]
        cases b
        · exact ⟨_, rfl, Or.inr
            (show ("Play does not beat the previous play" : String) ≠ "" by decide)⟩
        · exact ⟨_, rfl, Or.inl rfl⟩
    simp only [validatePlay]
    split_ifs with h1 h2 h3 h4 h5
    · exact ⟨_, rfl, Or.inr (show ("No cards selected" : String) ≠ "" by decide)⟩
    · exact ⟨_, rfl, Or.inr
        (show ("First play must include 3 of Diamonds" : String) ≠ "" by decide)⟩
    · exact ⟨_, rfl, Or.inr
        (show ("Invalid card combination" : String) ≠ "" by decide)⟩
    · exact ⟨_, rfl, Or.inr
        (show ("Invalid five-card combination" : String) ≠ "" by decide)⟩
    · exact hfin _ _
    · exact hfin _ _
  · cases l with
    | nil => simp [getHighestCard]
    | cons c rest => simp [getHighestCard]

/-- Witness for C9 at a concrete call. -/
theorem C9_witness :
    ∃ v, validatePlay [Card.mk Rank.Three Suit.Diamonds] [] true true = some v ∧
      (v.isValid = true ∨ v.errorMessage ≠ "") :=
  (C9_validatePlay_total [Card.mk Rank.Three Suit.Diamonds] [] [] [] [] true true).1

/-- When the first three checks pass, `validatePlay` hands over to
`finishValidation` with the classified shape and sub-shape. -/
theorem validatePlay_reaches_finish (cards lastPlay : List Card) (f m : Bool)
    (h1 : cards ≠ [])
    (h2 : m = true → containsThreeOfDiamonds cards = true)
    (h3 : determinePlayType cards ≠ PlayType.Invalid) :
    validatePlay cards lastPlay f m =
      finishValidation cards lastPlay f (determinePlayType cards)
        (if determinePlayType cards = PlayType.FiveCard then
          determineFiveCardType cards else FiveCardType.None) := by
  have hmc : (m && !containsThreeOfDiamonds cards) = false := by
    cases hm : m
    · simp
    · simp [h2 hm]
  simp only [validatePlay]
  rw [if_neg (show ¬ cards.isEmpty = true from fun hc => h1 (List.isEmpty_iff.mp hc)),
    if_neg (show ¬ (m && !containsThreeOfDiamonds cards) = true by simp [hmc]),
    if_neg (show ¬ (determinePlayType cards == PlayType.Invalid) = true by
      simpa using h3)]
  by_cases h4 : determinePlayType cards = PlayType.FiveCard
  · rw [if_pos (show (determinePlayType cards == PlayType.FiveCard) = true by
        simp [h4]),
      if_neg (show ¬ (determineFiveCardType cards == FiveCardType.None) = true by
        simpa using dft_ne_none_of_playType_fiveCard h4),
      if_pos h4]
  · rw [if_neg (show ¬ (determinePlayType cards == PlayType.FiveCard) = true by
        simpa using h4),
      if_neg h4]

/-- Acceptance behaviour of the shared validation tail. -/
theorem finishValidation_isValid_iff (cards lastPlay : List Card) (f : Bool)
    (pt : PlayType) (fct : FiveCardType) :
    (∃ v, finishValidation cards lastPlay f pt fct = some v ∧ v.isValid = true) ↔
      ((f = true ∨ lastPlay = []) ∨
        (cards.length = lastPlay.length ∧ doesPlayBeat cards lastPlay = some true)) := by
  rw [finishValidation]
  by_cases g1 : (f || lastPlay.isEmpty) = true
  · rw [if_pos g1]
    refine iff_of_true ⟨_, rfl, rfl⟩ (Or.inl ?_)
    rw [Bool.or_eq_true] at g1
    rcases g1 with h | h
    · exact Or.inl h
    · exact Or.inr (List.isEmpty_iff.mp h)
  · rw [if_neg g1]
    have hg1 : ¬(f = true ∨ lastPlay = []) := by
      rw [Bool.or_eq_true] at g1
      push_neg at g1 ⊢
      exact ⟨g1.1, fun hc => by simp [hc] at g1⟩
    by_cases g2 : cards.length ≠ lastPlay.length
    · rw [if_pos g2]
      refine iff_of_false ?_ ?_
      · rintro ⟨v, hv, hval⟩
        cases Option.some.inj hv
        exact absurd hval Bool.false_ne_true
      · rintro (hc | ⟨hlen, _⟩)
        · exact hg1 hc
        · exact g2 hlen
    · rw [if_neg g2]
      have hlen : cards.length = lastPlay.length := not_ne_iff.mp g2
      obtain ⟨b, hb⟩ :=
        Option.ne_none_iff_exists'.mp (doesPlayBeat_ne_none cards lastPlay)
      rw [hb]
      cases b
      · refine iff_of_false ?_ ?_
        · rintro ⟨v, hv, hval⟩
          have hv₂ : some ({ playType := pt, fiveCardType := fct,
                             errorMessage := "Play does not beat the previous play" } :
                            PlayValidation) = some v := hv
          cases Option.some.inj hv₂
          exact absurd hval Bool.false_ne_true
        · rintro (hc | ⟨_, hbt⟩)
          · exact hg1 hc
          · exact absurd (Option.some.inj hbt) Bool.false_ne_true
      · exact iff_of_true ⟨_, rfl, rfl⟩ (Or.inr ⟨hlen, rfl⟩)

/-- Claim C1: `validatePlay` accepts iff the candidate is non-empty,
contains the 3♦ when required, classifies to a non-Invalid shape (with a
non-None sub-shape for five-card plays), and either the play is
unconstrained (first play of the game or empty last play) or it matches the
last play's size and beats it; the checks run in exactly that order
(witnessed by which rejection reason is produced), and when the play is
unconstrained no beat-comparison is performed (the verdict does not depend
on the last play). -/
theorem C1_validatePlay_spec (cards lastPlay : List Card) (f m : Bool) :
    ((∃ v, validatePlay cards lastPlay f m = some v ∧ v.isValid = true) ↔
      (cards ≠ [] ∧
        (m = true → containsThreeOfDiamonds cards = true) ∧
        determinePlayType cards ≠ PlayType.Invalid ∧
        (determinePlayType cards = PlayType.FiveCard →
          determineFiveCardType cards ≠ FiveCardType.None) ∧
        ((f = true ∨ lastPlay = []) ∨
          (cards.length = lastPlay.length ∧ doesPlayBeat cards lastPlay = some true))))
    ∧ (f = true ∨ lastPlay = [] →
        validatePlay cards lastPlay f m = validatePlay cards [] f m)
    ∧ (cards = [] →
        validatePlay cards lastPlay f m = some { errorMessage := "No cards selected" })
    ∧ (cards ≠ [] → m = true → containsThreeOfDiamonds cards = false →
        validatePlay cards lastPlay f m =
          some { errorMessage := "First play must include 3 of Diamonds" })
    ∧ (cards ≠ [] → (m = true → containsThreeOfDiamonds cards = true) →
        determinePlayType cards = PlayType.Invalid →
        validatePlay cards lastPlay f m =
          some { playType := PlayType.Invalid,
                 errorMessage := "Invalid card combination" })
    ∧ (cards ≠ [] → (m = true → containsThreeOfDiamonds cards = true) →
        determinePlayType cards ≠ PlayType.Invalid →
        f = false → lastPlay ≠ [] → cards.length ≠ lastPlay.length →
        validatePlay cards lastPlay f m =
          some { playType := determinePlayType cards,
                 fiveCardType :=
                   if determinePlayType cards = PlayType.FiveCard then
                     determineFiveCardType cards else FiveCardType.None,
                 errorMessage := "Must play same number of cards as last play" })
    ∧ (cards ≠ [] → (m = true → containsThreeOfDiamonds cards = true) →
        determinePlayType cards ≠ PlayType.Invalid →
        f = false → lastPlay ≠ [] → cards.length = lastPlay.length →
        doesPlayBeat cards lastPlay = some false →
        validatePlay cards lastPlay f m =
          some { playType := determinePlayType cards,
                 fiveCardType :=
                   if determinePlayType cards = PlayType.FiveCard then
                     determineFiveCardType cards else FiveCardType.None,
                 errorMessage := "Play does not beat the previous play" }) := by
  refine ⟨?_, ?_, ?_, ?_, ?_, ?_, ?_⟩
  · -- the acceptance iff
    by_cases h1 : cards = []
    · subst h1
      refine iff_of_false ?_ (fun hc => hc.1 rfl)
      rintro ⟨v, hv, hval⟩
      rw [validatePlay,
        if_pos (show List.isEmpty ([] : List Card) = true from rfl)] at hv
      cases Option.some.inj hv
      exact absurd hval Bool.false_ne_true
    · by_cases h2 : m = true ∧ containsThreeOfDiamonds cards = false
      · refine iff_of_false ?_ ?_
        · rintro ⟨v, hv, hval⟩
          rw [validatePlay,
            if_neg (show ¬ cards.isEmpty = true from
              fun hc => h1 (List.isEmpty_iff.mp hc)),
            if_pos (show (m && !containsThreeOfDiamonds cards) = true by
              simp [h2.1, h2.2])] at hv
          cases Option.some.inj hv
          exact absurd hval Bool.false_ne_true
        · rintro ⟨_, hc, _⟩
          rw [hc h2.1] at h2
          exact absurd h2.2 (by simp)
      · have h2' : m = true → containsThreeOfDiamonds cards = true := by
          intro hm
          by_contra hc
          exact h2 ⟨hm, Bool.eq_false_iff.mpr hc⟩
        by_cases h3 : determinePlayType cards = PlayType.Invalid
        · refine iff_of_false ?_ (fun hc => hc.2.2.1 h3)
          rintro ⟨v, hv, hval⟩
          rw [validatePlay,
            if_neg (show ¬ cards.isEmpty = true from
              fun hc => h1 (List.isEmpty_iff.mp hc)),
            if_neg (show ¬ (m && !containsThreeOfDiamonds cards) = true by
              intro hc
              rw [Bool.and_eq_true] at hc
              exact h2 ⟨hc.1, by simpa using hc.2⟩),
            if_pos (show (determinePlayType cards == PlayType.Invalid) = true by
              simp [h3])] at hv
          cases Option.some.inj hv
          exact absurd hval Bool.false_ne_true
        · rw [validatePlay_reaches_finish cards lastPlay f m h1 h2' h3,
            finishValidation_isValid_iff]
          constructor
          · intro h
            exact ⟨h1, h2', h3, fun hfive => dft_ne_none_of_playType_fiveCard hfive, h⟩
          · rintro ⟨_, _, _, _, h⟩
            exact h
  · -- independence from the last play when unconstrained
    rintro (hf | hl)
    · subst hf
      simp [validatePlay, finishValidation]
    · rw [hl]
  · -- rejection 1: empty candidate
    rintro rfl
    rw [validatePlay, if_pos (show List.isEmpty ([] : List Card) = true from rfl)]
  · -- rejection 2: missing 3 of Diamonds
    intro h1 hm hc
    rw [validatePlay,
      if_neg (show ¬ cards.isEmpty = true from fun he => h1 (List.isEmpty_iff.mp he)),
      if_pos (show (m && !containsThreeOfDiamonds cards) = true by simp [hm, hc])]
  · -- rejection 3: invalid combination
    intro h1 h2 h3
    have hmc : (m && !containsThreeOfDiamonds cards) = false := by
      cases hm : m
      · simp
      · simp [h2 hm]
    rw [validatePlay,
      if_neg (show ¬ cards.isEmpty = true from fun he => h1 (List.isEmpty_iff.mp he)),
      if_neg (show ¬ (m && !containsThreeOfDiamonds cards) = true by simp [hmc]),
      if_pos (show (determinePlayType cards == PlayType.Invalid) = true by simp [h3]),
      h3]
  · -- rejection 5: size mismatch
    intro h1 h2 h3 hf hl hsz
    rw [validatePlay_reaches_finish cards lastPlay f m h1 h2 h3, finishValidation,
      if_neg (show ¬ (f || lastPlay.isEmpty) = true by
        simp [hf, List.isEmpty_iff, hl]),
      if_pos hsz]
  · -- rejection 6: fails to beat
    intro h1 h2 h3 hf hl hsz hbeat
    rw [validatePlay_reaches_finish cards lastPlay f m h1 h2 h3, finishValidation,
      if_neg (show ¬ (f || lastPlay.isEmpty) = true by
        simp [hf, List.isEmpty_iff, hl]),
      if_neg (show ¬ cards.length ≠ lastPlay.length from not_ne_iff.mpr hsz),
      hbeat]
    rfl

/-- Witness for C1: the opening single 3♦ on an empty table is accepted. -/
theorem C1_witness :
    ∃ v, validatePlay [Card.mk Rank.Three Suit.Diamonds] [] true true = some v ∧
      v.isValid = true :=
  (C1_validatePlay_spec [Card.mk Rank.Three Suit.Diamonds] [] true true).1.mpr
    ⟨by decide, fun _ => by decide, by decide, fun h => absurd h (by decide),
      Or.inl (Or.inl rfl)⟩

end GameRules

end Thirteen
